import Mathlib

/-!
Shallow embedding of `src/pred_mkts/core/rate_limiter.py`.

Python floats are modelled as rationals (`ℚ`), Python ints as `ℤ`/`ℕ`.
Telemetry emission (an external sink) and logging are pure observers in the
source and are omitted; randomness (`random.random()`) is passed in as an
explicit parameter `r` with `0 ≤ r < 1`.
-/

namespace PredMkts

/-- Embeds `TokenBucket.__init__` state: `rate`, `capacity`, `_tokens`,
`_last_refill`.  `capacity` is an `int` in Python but participates in float
arithmetic (`min`), so it is carried as `ℚ`. -/
structure TokenBucket where
  rate : ℚ
  capacity : ℚ
  tokens : ℚ
  last_refill : ℚ
deriving DecidableEq

/-- Embeds `TokenBucket._refill` at an explicit time `now`
(the Python method reads `now` from its injected time provider):
`elapsed = now - last_refill; tokens = min(capacity, tokens + elapsed*rate);
last_refill = now`. -/
def TokenBucket.refill (b : TokenBucket) (now : ℚ) : TokenBucket :=
  let elapsed := now - b.last_refill
  let newTokens := elapsed * b.rate
  { b with tokens := min b.capacity (b.tokens + newTokens), last_refill := now }

/-- Embeds `TokenBucket.consume`: implicit refill, then subtract `n` when
`tokens >= n`, reporting success. -/
def TokenBucket.consume (b : TokenBucket) (now : ℚ) (n : ℚ) : Bool × TokenBucket :=
  let b2 := b.refill now
  if n ≤ b2.tokens then (true, { b2 with tokens := b2.tokens - n })
  else (false, b2)

/-- Embeds `TokenBucket.time_until_tokens`: implicit refill; `0` when already
satisfiable, else `(n - tokens)/rate`; `none` models the Python
`float('inf')` returned when `rate ≤ 0`. -/
def TokenBucket.time_until_tokens (b : TokenBucket) (now : ℚ) (n : ℚ) :
    Option ℚ × TokenBucket :=
  let b2 := b.refill now
  if n ≤ b2.tokens then (some 0, b2)
  else if 0 < b2.rate then (some ((n - b2.tokens) / b2.rate), b2)
  else (none, b2)

/-- Embeds the `RateLimiterStats` dataclass. -/
structure RateLimiterStats where
  requests_total : ℕ := 0
  requests_throttled : ℕ := 0
  requests_429 : ℕ := 0
  requests_5xx : ℕ := 0
  total_wait_time : ℚ := 0
  adaptive_adjustments : ℕ := 0
deriving DecidableEq

/-- Embeds the header-name lookup `self.config.headers.get(key, default)`
used throughout `RateLimiter`; the four defaults are the ones written in the
source. -/
structure HeaderConfig where
  limit : String := "X-RateLimit-Limit"
  remaining : String := "X-RateLimit-Remaining"
  reset : String := "X-RateLimit-Reset"
  retry_after : String := "Retry-After"
deriving DecidableEq

/-- Response headers as an association list; embeds the Python dict together
with its membership test and item lookup. -/
def hget (headers : List (String × String)) (k : String) : Option String :=
  (headers.find? (fun p => p.1 == k)).map Prod.snd

/-- Numeric value of a digit list (most significant first); helper for the
embeddings of Python `int(...)` and `float(...)`. -/
def natOfDigits (cs : List Char) : ℕ :=
  cs.foldl (fun a c => a * 10 + (c.toNat - 48)) 0

/-- Leading-sign step shared by the numeric literal embeddings. -/
def parseSign : List Char → Bool × List Char
  | '-' :: cs => (true, cs)
  | '+' :: cs => (false, cs)
  | cs => (false, cs)

/-- Embeds Python `int(s)` on the sign-and-digits core of its grammar
(the forms exercised by this repository's header values). -/
def parseInt? (s : String) : Option ℤ :=
  let sc := parseSign s.data
  if !sc.2.isEmpty && sc.2.all Char.isDigit then
    some (if sc.1 then -(natOfDigits sc.2 : ℤ) else (natOfDigits sc.2 : ℤ))
  else none

/-- Unsigned part of Python `float(s)`: digits with an optional single
point, at least one digit overall. -/
def parseFloatCore (cs : List Char) : Option ℚ :=
  let sp := cs.span (fun c => c != '.')
  match sp.2 with
  | [] =>
    if !sp.1.isEmpty && sp.1.all Char.isDigit then some ((natOfDigits sp.1 : ℚ))
    else none
  | _ :: fp =>
    if (!sp.1.isEmpty || !fp.isEmpty) && sp.1.all Char.isDigit && fp.all Char.isDigit then
      some ((natOfDigits sp.1 : ℚ) + (natOfDigits fp : ℚ) / (10 ^ fp.length))
    else none

/-- Embeds Python `float(s)` on the sign/digits/fraction core of its grammar
(the forms exercised by this repository's header values). -/
def parseFloat? (s : String) : Option ℚ :=
  let sc := parseSign s.data
  (parseFloatCore sc.2).map (fun q => if sc.1 then -q else q)

/-- Embeds `RateLimiter._parse_retry_after`.  The first branch is Python
`float(retry_after)`; the second is `parsedate_to_datetime`, an external
stdlib date parser passed in abstractly as `parseDate` (returning the date's
timestamp, or `none` when parsing raises); `max(0, ts - now)` as in the
source. -/
def parse_retry_after (parseDate : String → Option ℚ) (now : ℚ)
    (value : String) : Option ℚ :=
  match parseFloat? value with
  | some x => some x
  | none =>
    match parseDate value with
    | some ts => some (max 0 (ts - now))
    | none => none

/-- Result of `RateLimiter._parse_rate_limit_headers`: the `limit` /
`remaining` / `reset` entries of the returned dict, each absent when its
header is missing or unparseable. -/
structure RateInfo where
  limitv : Option ℤ := none
  remainingv : Option ℤ := none
  resetv : Option ℚ := none
deriving DecidableEq

/-- Embeds `RateLimiter._parse_rate_limit_headers`: parse each configured
header if present (`int` for limit/remaining, `float` for reset), dropping
unparseable values; return `none` when the resulting dict is empty. -/
def parse_rate_limit_headers (cfg : HeaderConfig)
    (headers : List (String × String)) : Option RateInfo :=
  let lim := (hget headers cfg.limit).bind parseInt?
  let rem := (hget headers cfg.remaining).bind parseInt?
  let res := (hget headers cfg.reset).bind parseFloat?
  if lim.isNone && rem.isNone && res.isNone then none
  else some { limitv := lim, remainingv := rem, resetv := res }

/-- Embeds `RateLimiter._apply_adaptive_rate`: requires `limit` and `reset`
in the parsed info; `time_until_reset = max(0, reset - now)`; when positive,
`new_rate = limit / time_until_reset`, installed (with one adaptive
adjustment recorded) exactly when
`abs(new_rate - rate) / rate > 0.1`. -/
def apply_adaptive_rate (bucket : TokenBucket) (info : RateInfo) (now : ℚ)
    (stats : RateLimiterStats) : TokenBucket × RateLimiterStats :=
  match info.limitv, info.resetv with
  | some limit, some reset =>
    let timeUntilReset := max 0 (reset - now)
    if 0 < timeUntilReset then
      let newRate := (limit : ℚ) / timeUntilReset
      if 1/10 < |newRate - bucket.rate| / bucket.rate then
        ({ bucket with rate := newRate },
         { stats with adaptive_adjustments := stats.adaptive_adjustments + 1 })
      else (bucket, stats)
    else (bucket, stats)
  | _, _ => (bucket, stats)

/-- `RateLimiter.__init__`: `self._base_backoff = 1.0`. -/
def base_backoff : ℚ := 1

/-- `RateLimiter.__init__`: `self._max_backoff = 60.0`. -/
def max_backoff : ℚ := 60

/-- `RateLimiter.__init__`: `self._max_retries_5xx = 3`. -/
def max_retries_5xx : ℕ := 3

/-- Embeds `RateLimiter._calculate_backoff` with the base and ceiling as
explicit arguments (instance fields in the source):
`min(base * 2**attempt, max)`, then with jitter scaled by
`0.75 + random.random() * 0.5` where `r` stands for the `random.random()`
draw. -/
def calculate_backoff (baseB maxB : ℚ) (attempt : ℕ) (jitter : Bool)
    (r : ℚ) : ℚ :=
  let backoff := min (baseB * 2 ^ attempt) maxB
  if jitter then backoff * (3/4 + r * (1/2)) else backoff

/-- The tuple `("GET", "HEAD", "PUT", "DELETE", "OPTIONS")` from
`RateLimiter.should_retry`. -/
def idempotentMethods : List String := ["GET", "HEAD", "PUT", "DELETE", "OPTIONS"]

/-- Embeds Python `str.upper()` on the method name (ASCII uppercasing). -/
def upper (s : String) : String := String.mk (s.data.map Char.toUpper)

/-- Embeds `RateLimiter.should_retry`: always retry 429; for 500–599 retry
only when `method.upper()` is idempotent and `attempt < _max_retries_5xx`;
otherwise never retry. -/
def should_retry (status : ℤ) (attempt : ℕ) (method : String) : Bool :=
  if status = 429 then true
  else if 500 ≤ status ∧ status < 600 then
    if !(idempotentMethods.contains (upper method)) then false
    else if max_retries_5xx ≤ attempt then false
    else true
  else false

/-- The triple returned by the embedding of
`RateLimiter.handle_response_headers`: the optional wait (the Python return
value) and the updated bucket and stats. -/
structure HandleResult where
  wait : Option ℚ
  bucket : TokenBucket
  stats : RateLimiterStats
deriving DecidableEq

/-- The status-code classification tail of
`RateLimiter.handle_response_headers` (the code after the header block):
429 increments the 429 counter and waits per `Retry-After` when present and
parseable, else per `_calculate_backoff(0)`; 500–599 increments the 5xx
counter and waits per `_calculate_backoff(0)`; anything else returns no
wait. -/
def classify_status (cfg : HeaderConfig) (bucket : TokenBucket)
    (stats : RateLimiterStats) (now r : ℚ) (parseDate : String → Option ℚ)
    (headers : List (String × String)) (status : ℤ) : HandleResult :=
  if status = 429 then
    let stats := { stats with requests_429 := stats.requests_429 + 1 }
    match (hget headers cfg.retry_after).bind (parse_retry_after parseDate now) with
    | some w => { wait := some w, bucket := bucket, stats := stats }
    | none =>
      { wait := some (calculate_backoff base_backoff max_backoff 0 true r),
        bucket := bucket, stats := stats }
  else if 500 ≤ status ∧ status < 600 then
    { wait := some (calculate_backoff base_backoff max_backoff 0 true r),
      bucket := bucket,
      stats := { stats with requests_5xx := stats.requests_5xx + 1 } }
  else { wait := none, bucket := bucket, stats := stats }

/-- Embeds `RateLimiter.handle_response_headers`.  `r` stands for the
`random.random()` draw consumed by `_calculate_backoff`; `attempt` is the
caller-supplied retry attempt, which the source uses only in telemetry
events.  When rate-limit headers parsed, the adaptive rule runs; then
`remaining = rate_info.get("remaining", 0)`, and if `remaining == 0` with a
known reset, the function returns `max(0, reset - now)` and marks the
request throttled; otherwise control falls through to the status
classification. -/
def handle_response_headers (cfg : HeaderConfig) (bucket : TokenBucket)
    (stats : RateLimiterStats) (now r : ℚ) (parseDate : String → Option ℚ)
    (headers : List (String × String)) (status : ℤ) (_attempt : ℕ) :
    HandleResult :=
  match parse_rate_limit_headers cfg headers with
  | none => classify_status cfg bucket stats now r parseDate headers status
  | some info =>
    let bs := apply_adaptive_rate bucket info now stats
    if info.remainingv.getD 0 = 0 ∧ info.resetv.isSome then
      { wait := some (max 0 (info.resetv.getD 0 - now)),
        bucket := bs.1,
        stats := { bs.2 with requests_throttled := bs.2.requests_throttled + 1 } }
    else classify_status cfg bs.1 bs.2 now r parseDate headers status

/-- The counting semaphore `self._semaphore` of `RateLimiter.acquire`,
reduced to its permit count (`available` = permits not currently held). -/
structure GateState where
  available : ℤ
deriving DecidableEq

/-- `self._semaphore.acquire()`. -/
def gateEnter (g : GateState) : GateState :=
  { available := g.available - 1 }

/-- `self._semaphore.release()`. -/
def gateExit (g : GateState) : GateState :=
  { available := g.available + 1 }

/-- The guard dataclass `RateLimitGuard` yielded by `acquire`. -/
structure RateLimitGuard where
  wait_time : ℚ := 0
  bucket_key : String := ""
deriving DecidableEq

/-- The token-wait loop of `RateLimiter.acquire`:
`while not bucket.consume(1): sleep(min(time_until_tokens(1), 0.1))`,
accumulating `wait_time`.  The clock readings observed across iterations
are supplied as the list `times`; exhausting it models a fault inside the
loop (e.g. a time-provider error), surfaced as an exception. -/
def waitLoop : List ℚ → TokenBucket → ℚ → Except String (ℚ × TokenBucket)
  | [], _, _ => .error "clock fault"
  | t :: ts, b, w =>
    let cb := b.consume t 1
    if cb.1 then .ok (w, cb.2)
    else
      let tu := cb.2.time_until_tokens t 1
      let inc : ℚ :=
        match tu.1 with
        | some s => if 0 < s then min s (1/10) else 0
        | none => 1/10
      waitLoop ts tu.2 (w + inc)

/-- The body of `RateLimiter.acquire` between `self._semaphore.acquire()`
and the `finally`: the token-wait loop, the stats update, the telemetry
emission (which may itself raise — modelled by `recordOk`), and the yield of
the guard (the caller's `with` block runs at the yield, so its exceptions
also surface here). -/
def acquireBody (bucket : TokenBucket) (stats : RateLimiterStats)
    (times : List ℚ) (bucketKey : String) (recordOk : Bool) :
    Except String (RateLimitGuard × TokenBucket × RateLimiterStats) :=
  match waitLoop times bucket 0 with
  | .error e => .error e
  | .ok (waitTime, b2) =>
    let stats :=
      { stats with
        requests_total := stats.requests_total + 1,
        requests_throttled :=
          if 0 < waitTime then stats.requests_throttled + 1
          else stats.requests_throttled,
        total_wait_time :=
          if 0 < waitTime then stats.total_wait_time + waitTime
          else stats.total_wait_time }
    if recordOk then
      .ok ({ wait_time := waitTime, bucket_key := bucketKey }, b2, stats)
    else .error "telemetry sink raised"

/-- Embeds `RateLimiter.acquire`'s gate lifecycle: enter the semaphore, run
the body under `try`, and — on both the normal and the exceptional path —
release the permit in `finally` before returning/propagating. -/
def acquire (g : GateState) (bucket : TokenBucket) (stats : RateLimiterStats)
    (times : List ℚ) (bucketKey : String) (recordOk : Bool) :
    Except String RateLimitGuard × GateState × TokenBucket × RateLimiterStats :=
  let g1 := gateEnter g
  match acquireBody bucket stats times bucketKey recordOk with
  | .ok (guard, b2, s2) => (.ok guard, gateExit g1, b2, s2)
  | .error e => (.error e, gateExit g1, bucket, stats)

/-! Theorems -/

/-- C1 counterexample: with current rate 10 and headers `limit=500,
remaining=400, reset=now+20`, `_apply_adaptive_rate` installs
`limit / (reset - now) = 25` tokens/sec, not `remaining / (reset - now)
= 20` as the claim states. -/
theorem adaptive_claim_cex :
    (apply_adaptive_rate ⟨10, 20, 20, 1000⟩ ⟨some 500, some 400, some 1020⟩
      1000 {}).1.rate = 25 ∧ (25 : ℚ) ≠ 20 := by
  constructor
  · norm_num [apply_adaptive_rate]
  · norm_num

/-- C1 (amended): for a response declaring limit, remaining and reset with
reset in the future, `_apply_adaptive_rate` computes
`candidate_rate = limit / (reset - now)` (the declared `remaining` is
ignored), and replaces the bucket's rate with it — recording exactly one
adaptive adjustment — precisely when the relative difference from the
current rate exceeds 10%; otherwise bucket and stats are unchanged. -/
theorem adaptive_rate_rule (bucket : TokenBucket) (stats : RateLimiterStats)
    (limit remaining : ℤ) (reset now : ℚ) (hfut : now < reset) :
    (1/10 < |(limit : ℚ) / (reset - now) - bucket.rate| / bucket.rate →
      apply_adaptive_rate bucket ⟨some limit, some remaining, some reset⟩ now stats
        = ({ bucket with rate := (limit : ℚ) / (reset - now) },
           { stats with adaptive_adjustments := stats.adaptive_adjustments + 1 })) ∧
    (¬ (1/10 < |(limit : ℚ) / (reset - now) - bucket.rate| / bucket.rate) →
      apply_adaptive_rate bucket ⟨some limit, some remaining, some reset⟩ now stats
        = (bucket, stats)) := by
  have hmax : max 0 (reset - now) = reset - now :=
    max_eq_right (sub_nonneg.mpr hfut.le)
  have hpos : 0 < reset - now := sub_pos.mpr hfut
  constructor <;> intro hthr <;>
    · unfold apply_adaptive_rate
      simp only [hmax]
      rw [if_pos hpos]
      first
        | rw [if_pos hthr]
        | rw [if_neg hthr]

/-- C1 witness: the adaptive rule applied at the spec's concrete input. -/
theorem adaptive_rate_rule_witness :
    (1000 : ℚ) < 1020 ∧
    (apply_adaptive_rate ⟨10, 20, 20, 1000⟩ ⟨some 500, some 400, some 1020⟩
      1000 {}).1.rate = 25 := by
  refine ⟨by norm_num, ?_⟩
  have h := (adaptive_rate_rule ⟨10, 20, 20, 1000⟩ {} 500 400 1020 1000
    (by norm_num)).1 (by norm_num)
  rw [h]
  norm_num

/-- C4 counterexample: a refill at a timestamp 10 seconds before
`last_refill` (rate 1, level 5) drives the level to `-5`: the code adds
`elapsed * rate` with no clamp, so negative elapsed subtracts tokens and
can push the level below zero. -/
theorem refill_claim_cex :
    (TokenBucket.refill ⟨1, 10, 5, 100⟩ 90).tokens = -5 ∧
    (-5 : ℚ) ≠ 5 ∧ (-5 : ℚ) < 0 := by
  refine ⟨?_, by norm_num, by norm_num⟩
  norm_num [TokenBucket.refill, min_def]

/-- C4 (amended): a refill at a timestamp equal to the bucket's last refill
timestamp (elapsed = 0) adds no tokens and leaves the level unchanged, for
any bucket whose level is within capacity; with strictly negative elapsed
the code subtracts `|elapsed| * rate` tokens and the level can go below
zero (see the counterexample). -/
theorem refill_zero_elapsed (b : TokenBucket) (h : b.tokens ≤ b.capacity) :
    (b.refill b.last_refill).tokens = b.tokens := by
  simp [TokenBucket.refill, min_eq_right h]

/-- C4 witness: zero-elapsed refill on a concrete bucket. -/
theorem refill_zero_elapsed_witness :
    (5 : ℚ) ≤ 10 ∧ (TokenBucket.refill ⟨1, 10, 5, 100⟩ 100).tokens = 5 :=
  ⟨by norm_num, refill_zero_elapsed ⟨1, 10, 5, 100⟩ (by norm_num)⟩

/-- C5 counterexample: `_parse_retry_after` tries Python `float(value)`
first, which accepts negative numeric strings, so `"-5"` yields `-5.0`
rather than the "absent" the claim requires for values outside the
non-negative-number grammar. -/
theorem retry_after_claim_cex :
    parse_retry_after (fun _ => none) 1000 "-5" = some (-5) ∧
    some (-5 : ℚ) ≠ (none : Option ℚ) := by
  decide

/-- C5 (amended): `_parse_retry_after` maps `"30"` to 30.0; a parseable
HTTP-date at or before `now` yields 0.0 (`max(0, ts - now)` is never
negative); a value that is neither float-parseable nor a parseable date
yields absent; but any float-parseable string — including negative ones —
is returned as-is, so negative numeric strings produce negative waits
rather than absent. -/
theorem retry_after_parse (pd : String → Option ℚ) (now : ℚ) :
    parse_retry_after pd now "30" = some 30 ∧
    (∀ v ts, parseFloat? v = none → pd v = some ts → ts ≤ now →
      parse_retry_after pd now v = some 0) ∧
    (∀ v, parseFloat? v = none → pd v = none →
      parse_retry_after pd now v = none) ∧
    (∀ v x, parseFloat? v = some x → parse_retry_after pd now v = some x) := by
  refine ⟨?_, ?_, ?_, ?_⟩
  · have h : parseFloat? "30" = some 30 := by decide
    simp [parse_retry_after, h]
  · intro v ts hf hd hle
    simp [parse_retry_after, hf, hd, max_eq_left (sub_nonpos.mpr hle)]
  · intro v hf hd
    simp [parse_retry_after, hf, hd]
  · intro v x hf
    simp [parse_retry_after, hf]

/-- C5 witness: `"30"` parses to 30 and a past date (parsed instant 900,
now 1000) yields 0. -/
theorem retry_after_parse_witness :
    parse_retry_after (fun _ => some 900) 1000 "30" = some 30 ∧
    parse_retry_after (fun _ => some 900) 1000 "Mon, 01 Jan 1990 00:00:00 GMT"
      = some 0 := by
  have h := retry_after_parse (fun _ => some 900) 1000
  exact ⟨h.1, h.2.1 "Mon, 01 Jan 1990 00:00:00 GMT" 900 (by decide) rfl
    (by norm_num)⟩

/-- C7: `_calculate_backoff` without jitter equals
`min(base * 2^attempt, max)`; with base 1 and ceiling 60 it takes the exact
values 1, 2, 4 at attempts 0, 1, 2 (strictly increasing) and equals the
ceiling at attempt 100; with jitter the unjittered value is scaled by
`0.75 + r/2` for the uniform draw `r ∈ [0,1)`, a factor bounded in
`[3/4, 5/4)`, symmetric about 1, and strictly positive. -/
theorem backoff_formula (baseB maxB : ℚ) (attempt : ℕ) (r : ℚ)
    (hr0 : 0 ≤ r) (hr1 : r < 1) :
    calculate_backoff baseB maxB attempt false r = min (baseB * 2 ^ attempt) maxB ∧
    calculate_backoff 1 60 0 false r = 1 ∧
    calculate_backoff 1 60 1 false r = 2 ∧
    calculate_backoff 1 60 2 false r = 4 ∧
    calculate_backoff 1 60 0 false r < calculate_backoff 1 60 1 false r ∧
    calculate_backoff 1 60 1 false r < calculate_backoff 1 60 2 false r ∧
    calculate_backoff 1 60 100 false r = 60 ∧
    calculate_backoff baseB maxB attempt true r
      = min (baseB * 2 ^ attempt) maxB * (3/4 + r * (1/2)) ∧
    3/4 ≤ 3/4 + r * (1/2) ∧ 3/4 + r * (1/2) < 5/4 ∧ 0 < 3/4 + r * (1/2) := by
  refine ⟨rfl, ?_, ?_, ?_, ?_, ?_, ?_, rfl, by linarith, by linarith, by linarith⟩
  all_goals norm_num [calculate_backoff, min_def]

/-- C7 witness: the backoff formula at attempt 2 with jitter draw 1/2. -/
theorem backoff_formula_witness :
    (0 : ℚ) ≤ 1/2 ∧ (1/2 : ℚ) < 1 ∧
    calculate_backoff 1 60 2 true (1/2) = 4 := by
  refine ⟨by norm_num, by norm_num, ?_⟩
  have h := backoff_formula 1 60 2 (1/2) (by norm_num) (by norm_num)
  rw [h.2.2.2.2.2.2.2.1]
  norm_num [min_def]

/-- C8: `should_retry` is a pure function of its arguments; it returns true
for status 429 at every attempt and method; for a status in 500–599 it
returns true exactly when `method.upper()` is one of
GET/HEAD/PUT/DELETE/OPTIONS and the attempt is below the 5xx bound
(`_max_retries_5xx = 3`); in particular `should_retry 503 0 "POST"` is
false and `should_retry 503 0 "GET"` is true. -/
theorem should_retry_classification (status : ℤ) (attempt : ℕ) (method : String)
    (h5 : 500 ≤ status) (h6 : status < 600) :
    (∀ (a : ℕ) (m : String), should_retry 429 a m = true) ∧
    (should_retry status attempt method = true ↔
      (idempotentMethods.contains (upper method) = true ∧
        attempt < max_retries_5xx)) ∧
    should_retry 503 0 "POST" = false ∧
    should_retry 503 0 "GET" = true := by
  have h429 : ¬ (status = 429) := by omega
  have hcond : 500 ≤ status ∧ status < 600 := ⟨h5, h6⟩
  refine ⟨fun a m => by simp [should_retry], ?_, by decide, by decide⟩
  unfold should_retry
  rw [if_neg h429, if_pos hcond]
  cases hc : idempotentMethods.contains (upper method)
  · simp [hc]
  · simp only [hc, Bool.not_true, Bool.false_eq_true, if_false, true_and]
    by_cases hle : max_retries_5xx ≤ attempt
    · rw [if_pos hle]
      simp only [Bool.false_eq_true, false_iff]
      omega
    · rw [if_neg hle]
      simp only [true_iff]
      omega

/-- C8 witness: the classification at status 503, attempt 0, method GET. -/
theorem should_retry_classification_witness :
    (500 : ℤ) ≤ 503 ∧ (503 : ℤ) < 600 ∧ should_retry 503 0 "GET" = true :=
  ⟨by norm_num, by norm_num,
    (should_retry_classification 503 0 "GET" (by norm_num) (by norm_num)).2.2.2⟩

/-- C9: the `acquire` gate lifecycle never leaks a permit: whatever happens
inside the body after the semaphore is entered — the token-wait loop
faulting, the telemetry sink raising, or the caller's block raising at the
yield — the `finally` releases the permit, so the gate's available count
after `acquire` completes (normally or exceptionally) equals its count
before. -/
theorem acquire_releases_permit (g : GateState) (bucket : TokenBucket)
    (stats : RateLimiterStats) (times : List ℚ) (bucketKey : String)
    (recordOk : Bool) :
    (acquire g bucket stats times bucketKey recordOk).2.1 = g := by
  cases g with
  | mk a =>
    unfold acquire
    cases acquireBody bucket stats times bucketKey recordOk <;>
      simp [gateEnter, gateExit]

/-- Helper: the adaptive-rate step never touches the throttled counter. -/
theorem apply_adaptive_rate_throttled (bucket : TokenBucket) (info : RateInfo)
    (now : ℚ) (stats : RateLimiterStats) :
    (apply_adaptive_rate bucket info now stats).2.requests_throttled
      = stats.requests_throttled := by
  obtain ⟨lv, rv, sv⟩ := info
  cases lv <;> cases sv <;> simp [apply_adaptive_rate] <;> split_ifs <;> rfl

/-- C2 counterexample: the fourth consecutive 503 (attempt 3, at the bound
`_max_retries_5xx = 3`) still makes `handle_response_headers` return a
wait — `_calculate_backoff(0)` with jitter draw 1/2 gives 1.0 — rather than
the "do not retry" the claim requires; the function also ignores the
attempt count when seeding the backoff. -/
theorem handle_5xx_claim_cex :
    (handle_response_headers {} ⟨10, 20, 20, 1000⟩ {} 1000 (1/2)
      (fun _ => none) [] 503 3).wait = some 1 ∧
    some (1 : ℚ) ≠ (none : Option ℚ) ∧
    max_retries_5xx ≤ 3 := by
  refine ⟨?_, by simp, by norm_num [max_retries_5xx]⟩
  norm_num [handle_response_headers, parse_rate_limit_headers, hget,
    classify_status, calculate_backoff, base_backoff, max_backoff, min_def]

/-- C2 (amended): for a 5xx response with no parseable rate-limit headers,
`handle_response_headers` increments the 5xx counter and returns a wait of
`_calculate_backoff(0)` — seeded at attempt 0 regardless of the attempt
count, and never a "do not retry"; the retry bound (default 3) is enforced
separately by `should_retry`, which for an idempotent GET returns true
exactly while the attempt count is below the bound (so the fourth
consecutive 503 yields "do not retry" from `should_retry`, not from
`handle_response_headers`). -/
theorem handle_5xx_backoff (cfg : HeaderConfig) (bucket : TokenBucket)
    (stats : RateLimiterStats) (now r : ℚ) (pd : String → Option ℚ)
    (headers : List (String × String)) (status : ℤ) (attempt : ℕ)
    (h5 : 500 ≤ status) (h6 : status < 600)
    (hinfo : parse_rate_limit_headers cfg headers = none) :
    (handle_response_headers cfg bucket stats now r pd headers status attempt).wait
      = some (calculate_backoff base_backoff max_backoff 0 true r) ∧
    (handle_response_headers cfg bucket stats now r pd headers status
        attempt).stats.requests_5xx = stats.requests_5xx + 1 ∧
    (should_retry status attempt "GET" = true ↔ attempt < max_retries_5xx) := by
  have h429 : ¬ (status = 429) := by omega
  have hcond : 500 ≤ status ∧ status < 600 := ⟨h5, h6⟩
  have hup : idempotentMethods.contains (upper "GET") = true := by decide
  refine ⟨?_, ?_, ?_⟩
  · unfold handle_response_headers classify_status
    simp only [hinfo]
    rw [if_neg h429, if_pos hcond]
  · unfold handle_response_headers classify_status
    simp only [hinfo]
    rw [if_neg h429, if_pos hcond]
  · unfold should_retry
    rw [if_neg h429, if_pos hcond, hup]
    simp only [Bool.not_true, Bool.false_eq_true, if_false]
    by_cases hle : max_retries_5xx ≤ attempt
    · rw [if_pos hle]
      simp only [Bool.false_eq_true, false_iff]
      omega
    · rw [if_neg hle]
      simp only [true_iff]
      omega

/-- C2 witness: the amended statement at the fourth consecutive 503 for a
GET (attempt 3): the handler still counts and returns a backoff wait, and
`should_retry` is the place that says "do not retry". -/
theorem handle_5xx_backoff_witness :
    (500 : ℤ) ≤ 503 ∧ (503 : ℤ) < 600 ∧
    parse_rate_limit_headers {} ([] : List (String × String)) = none ∧
    (handle_response_headers {} ⟨10, 20, 20, 1000⟩ {} 1000 (1/2)
      (fun _ => none) [] 503 3).stats.requests_5xx = 1 ∧
    should_retry 503 3 "GET" = false := by
  have h := handle_5xx_backoff {} ⟨10, 20, 20, 1000⟩ {} 1000 (1/2)
    (fun _ => none) [] 503 3 (by norm_num) (by norm_num) (by decide)
  refine ⟨by norm_num, by norm_num, by decide, by simpa using h.2.1, ?_⟩
  have h3 := h.2.2
  simp only [max_retries_5xx] at h3
  simpa using h3

/-- C3 counterexample: a 429 with no Retry-After header at attempt 2 gets a
fallback wait of `_calculate_backoff(0)` = 1.0 (jitter draw 1/2), not the
claimed backoff seeded by the request's 429 retry count, which would be
`_calculate_backoff(2)` = 4.0 at the same draw. -/
theorem handle_429_claim_cex :
    (handle_response_headers {} ⟨10, 20, 20, 1000⟩ {} 1000 (1/2)
      (fun _ => none) [] 429 2).wait = some 1 ∧
    calculate_backoff base_backoff max_backoff 2 true (1/2) = 4 ∧
    (1 : ℚ) ≠ 4 := by
  refine ⟨?_, ?_, by norm_num⟩
  · norm_num [handle_response_headers, parse_rate_limit_headers, hget,
      classify_status, calculate_backoff, base_backoff, max_backoff, min_def]
  · norm_num [calculate_backoff, base_backoff, max_backoff, min_def]

/-- C3 (amended): for a 429 response with no parseable rate-limit headers,
`handle_response_headers` increments the 429 counter; when the configured
Retry-After header is present and parseable, the returned wait is exactly
its parsed value; otherwise the wait is `_calculate_backoff(0)` — seeded at
attempt 0, not by any per-request 429 retry count (the source keeps no such
counter). -/
theorem handle_429_wait (cfg : HeaderConfig) (bucket : TokenBucket)
    (stats : RateLimiterStats) (now r : ℚ) (pd : String → Option ℚ)
    (headers : List (String × String)) (attempt : ℕ)
    (hinfo : parse_rate_limit_headers cfg headers = none) :
    (handle_response_headers cfg bucket stats now r pd headers 429
        attempt).stats.requests_429 = stats.requests_429 + 1 ∧
    (∀ v w, hget headers cfg.retry_after = some v →
      parse_retry_after pd now v = some w →
      (handle_response_headers cfg bucket stats now r pd headers 429
        attempt).wait = some w) ∧
    ((hget headers cfg.retry_after).bind (parse_retry_after pd now) = none →
      (handle_response_headers cfg bucket stats now r pd headers 429
        attempt).wait
        = some (calculate_backoff base_backoff max_backoff 0 true r)) := by
  refine ⟨?_, ?_, ?_⟩
  · unfold handle_response_headers classify_status
    simp only [hinfo]
    cases hb : (hget headers cfg.retry_after).bind (parse_retry_after pd now) <;>
      simp [hb]
  · intro v w hv hw
    unfold handle_response_headers classify_status
    simp only [hinfo]
    simp [hv, hw]
  · intro hnone
    unfold handle_response_headers classify_status
    simp only [hinfo]
    simp [hnone]

/-- C3 witness: scenario B — a 429 carrying `Retry-After: 10` yields a wait
of exactly 10.0 and a 429 count of 1. -/
theorem handle_429_wait_witness :
    parse_rate_limit_headers {} [("Retry-After", "10")] = none ∧
    (handle_response_headers {} ⟨10, 20, 20, 1000⟩ {} 1000 (1/2)
      (fun _ => none) [("Retry-After", "10")] 429 0).wait = some 10 ∧
    (handle_response_headers {} ⟨10, 20, 20, 1000⟩ {} 1000 (1/2)
      (fun _ => none) [("Retry-After", "10")] 429 0).stats.requests_429 = 1 := by
  have h := handle_429_wait {} ⟨10, 20, 20, 1000⟩ {} 1000 (1/2) (fun _ => none)
    [("Retry-After", "10")] 0 (by decide)
  exact ⟨by decide, h.2.1 "10" 10 (by decide) (by decide), by simpa using h.1⟩

/-- C10: when the response headers carry parseable limit and reset values,
the reset lies strictly in the future, and no remaining header is present,
`handle_response_headers` takes `rate_info.get("remaining", 0) = 0`, so it
returns a wait-until-reset of `max(0, reset - now) = reset - now` and
increments the throttled counter — although the server never declared its
remaining quota exhausted. -/
theorem missing_remaining_throttles (cfg : HeaderConfig) (bucket : TokenBucket)
    (stats : RateLimiterStats) (now r : ℚ) (pd : String → Option ℚ)
    (headers : List (String × String)) (status : ℤ) (attempt : ℕ)
    (sl sr : String) (l : ℤ) (q : ℚ)
    (hl1 : hget headers cfg.limit = some sl) (hl2 : parseInt? sl = some l)
    (hr1 : hget headers cfg.reset = some sr) (hr2 : parseFloat? sr = some q)
    (hrem : hget headers cfg.remaining = none)
    (hfut : now < q) :
    (handle_response_headers cfg bucket stats now r pd headers status
      attempt).wait = some (q - now) ∧
    (handle_response_headers cfg bucket stats now r pd headers status
      attempt).stats.requests_throttled = stats.requests_throttled + 1 := by
  have hinfo : parse_rate_limit_headers cfg headers
      = some { limitv := some l, remainingv := none, resetv := some q } := by
    unfold parse_rate_limit_headers
    rw [hl1, hr1, hrem]
    simp [hl2, hr2]
  have hmax : max 0 (q - now) = q - now := max_eq_right (sub_nonneg.mpr hfut.le)
  unfold handle_response_headers
  simp only [hinfo, Option.getD_none, Option.getD_some, Option.isSome_some,
    and_true, if_pos rfl]
  rw [hmax]
  exact ⟨rfl, by simp [apply_adaptive_rate_throttled]⟩

/-- C10 witness: limit 100 and reset 1030 present, remaining absent, at now
1000: the handler returns a 30-second wait and one throttled request. -/
theorem missing_remaining_throttles_witness :
    (1000 : ℚ) < 1030 ∧
    (handle_response_headers {} ⟨10, 20, 20, 1000⟩ {} 1000 (1/2)
      (fun _ => none) [("X-RateLimit-Limit", "100"), ("X-RateLimit-Reset", "1030")]
      200 0).wait = some 30 ∧
    (handle_response_headers {} ⟨10, 20, 20, 1000⟩ {} 1000 (1/2)
      (fun _ => none) [("X-RateLimit-Limit", "100"), ("X-RateLimit-Reset", "1030")]
      200 0).stats.requests_throttled = 1 := by
  have h := missing_remaining_throttles {} ⟨10, 20, 20, 1000⟩ {} 1000 (1/2)
    (fun _ => none) [("X-RateLimit-Limit", "100"), ("X-RateLimit-Reset", "1030")]
    200 0 "100" "1030" 100 1030 (by decide) (by decide) (by decide) (by decide)
    (by decide) (by norm_num)
  refine ⟨by norm_num, ?_, by simpa using h.2⟩
  rw [h.1]
  norm_num

/-- One observed `TokenBucket` operation together with the clock reading at
which it runs (the Python methods read the clock from the injected time
provider). -/
inductive BucketOp where
  | refillAt (t : ℚ)
  | consumeAt (t : ℚ) (n : ℚ)
deriving DecidableEq

/-- The clock reading carried by an operation. -/
def BucketOp.time : BucketOp → ℚ
  | .refillAt t => t
  | .consumeAt t _ => t

/-- Consumption requests a non-negative token count (every call site in the
source uses `consume(1)`). -/
def BucketOp.amountOk : BucketOp → Prop
  | .refillAt _ => True
  | .consumeAt _ n => 0 ≤ n

/-- Apply one operation to the bucket (`_refill` or `consume`). -/
def applyOp (b : TokenBucket) : BucketOp → TokenBucket
  | .refillAt t => b.refill t
  | .consumeAt t n => (b.consume t n).2

/-- Run a sequence of operations left to right. -/
def runOps (b : TokenBucket) (ops : List BucketOp) : TokenBucket :=
  ops.foldl applyOp b

/-- Clock readings are non-decreasing starting from `t` (the bucket's
current `last_refill`), and every consume amount is non-negative. -/
def validFrom (t : ℚ) : List BucketOp → Prop
  | [] => True
  | op :: rest => t ≤ op.time ∧ op.amountOk ∧ validFrom op.time rest

/-- Helper: a valid sequence stays valid when truncated. -/
theorem validFrom_append_left (t : ℚ) (pre suf : List BucketOp) :
    validFrom t (pre ++ suf) → validFrom t pre := by
  induction pre generalizing t with
  | nil => intro _; trivial
  | cons op rest ih =>
    intro h
    exact ⟨h.1, h.2.1, ih op.time h.2.2⟩

/-- Helper: one step preserves the token-level invariant, the capacity and
the rate, and moves `last_refill` to the operation's time. -/
theorem applyOp_invariant (b : TokenBucket) (op : BucketOp)
    (hrate : 0 ≤ b.rate) (h0 : 0 ≤ b.tokens) (hc : b.tokens ≤ b.capacity)
    (ht : b.last_refill ≤ op.time) (ha : op.amountOk) :
    0 ≤ (applyOp b op).tokens ∧
    (applyOp b op).tokens ≤ (applyOp b op).capacity ∧
    (applyOp b op).capacity = b.capacity ∧
    (applyOp b op).rate = b.rate ∧
    (applyOp b op).last_refill = op.time := by
  have hcap : (0 : ℚ) ≤ b.capacity := h0.trans hc
  cases op with
  | refillAt t =>
    simp only [BucketOp.time] at ht
    have helap : 0 ≤ (t - b.last_refill) * b.rate :=
      mul_nonneg (sub_nonneg.mpr ht) hrate
    simp only [applyOp, TokenBucket.refill, BucketOp.time]
    exact ⟨le_min hcap (by linarith), min_le_left _ _, trivial, trivial, trivial⟩
  | consumeAt t n =>
    simp only [BucketOp.time] at ht
    have hn : 0 ≤ n := ha
    have helap : 0 ≤ (t - b.last_refill) * b.rate :=
      mul_nonneg (sub_nonneg.mpr ht) hrate
    have hminle := min_le_left b.capacity (b.tokens + (t - b.last_refill) * b.rate)
    simp only [applyOp, TokenBucket.consume, TokenBucket.refill, BucketOp.time]
    split_ifs with hcons
    · refine ⟨?_, ?_, rfl, rfl, rfl⟩
      · dsimp only
        linarith
      · dsimp only
        linarith
    · refine ⟨?_, ?_, rfl, rfl, rfl⟩
      · dsimp only
        exact le_min hcap (by linarith)
      · dsimp only
        exact min_le_left _ _

/-- Helper: the token-level invariant is preserved along any valid
operation sequence. -/
theorem runOps_invariant (b : TokenBucket) (ops : List BucketOp)
    (hvalid : validFrom b.last_refill ops)
    (hrate : 0 ≤ b.rate) (h0 : 0 ≤ b.tokens) (hc : b.tokens ≤ b.capacity) :
    0 ≤ (runOps b ops).tokens ∧ (runOps b ops).tokens ≤ b.capacity := by
  induction ops generalizing b with
  | nil => exact ⟨h0, hc⟩
  | cons op rest ih =>
    obtain ⟨ht, ha, hrest⟩ := hvalid
    obtain ⟨s0, s1, s2, s3, s4⟩ := applyOp_invariant b op hrate h0 hc ht ha
    have hrest2 : validFrom (applyOp b op).last_refill rest := by
      rw [s4]; exact hrest
    have hrate2 : 0 ≤ (applyOp b op).rate := by rw [s3]; exact hrate
    have hrun := ih (applyOp b op) hrest2 hrate2 s0 s1
    have hstep : runOps b (op :: rest) = runOps (applyOp b op) rest := rfl
    rw [hstep]
    exact ⟨hrun.1, by rw [← s2]; exact hrun.2⟩

/-- C6: along every sequence of refill and consume operations whose
observed clock readings are non-decreasing (starting from the bucket's
`last_refill`), with non-negative refill rate and consume amounts and a
level initially within `[0, capacity]`, the token level satisfies
`0 ≤ tokens ≤ capacity` at every observation point (i.e. after every
prefix of the sequence). -/
theorem bucket_level_invariant (b : TokenBucket) (ops pre suf : List BucketOp)
    (hsplit : ops = pre ++ suf)
    (hvalid : validFrom b.last_refill ops)
    (hrate : 0 ≤ b.rate) (h0 : 0 ≤ b.tokens) (hc : b.tokens ≤ b.capacity) :
    0 ≤ (runOps b pre).tokens ∧ (runOps b pre).tokens ≤ b.capacity := by
  subst hsplit
  exact runOps_invariant b pre (validFrom_append_left _ pre suf hvalid)
    hrate h0 hc

/-- C6 witness: a concrete valid sequence — consume 3 at time 1, refill at
time 2, consume 5 at time 2 — on a bucket with rate 2, capacity 10, level
10 at time 0 keeps the level within `[0, 10]`. -/
theorem bucket_level_invariant_witness :
    validFrom (0 : ℚ)
      [BucketOp.consumeAt 1 3, BucketOp.refillAt 2, BucketOp.consumeAt 2 5] ∧
    0 ≤ (runOps ⟨2, 10, 10, 0⟩
      [BucketOp.consumeAt 1 3, BucketOp.refillAt 2,
        BucketOp.consumeAt 2 5]).tokens ∧
    (runOps ⟨2, 10, 10, 0⟩
      [BucketOp.consumeAt 1 3, BucketOp.refillAt 2,
        BucketOp.consumeAt 2 5]).tokens ≤ 10 := by
  have hv : validFrom (0 : ℚ)
      [BucketOp.consumeAt 1 3, BucketOp.refillAt 2, BucketOp.consumeAt 2 5] := by
    norm_num [validFrom, BucketOp.time, BucketOp.amountOk]
  have h := bucket_level_invariant ⟨2, 10, 10, 0⟩
    [BucketOp.consumeAt 1 3, BucketOp.refillAt 2, BucketOp.consumeAt 2 5]
    [BucketOp.consumeAt 1 3, BucketOp.refillAt 2, BucketOp.consumeAt 2 5] []
    (by simp) hv (by norm_num) (by norm_num) (by norm_num)
  exact ⟨hv, h.1, h.2⟩

end PredMkts
